import Mathlib

/-!
Verification of the Marisol crystal-plasticity / phase-field material models.

Shallow embedding of:
  - `LinearIsoElasticPFAmor::updateVar` (src/src/materials/LinearIsoElasticPFAmor.C),
  - `ComputePolycrystalElasticityTensorCP::computeQpElasticityTensor`
    (src/unnamed/part_001),
  - the `FiniteStrainCrystalPlasticityW0p` solver, whose implementation is not in
    the source tree (src/unnamed/part_000 holds only its class declaration); that
    part is modelled from the specification document, as noted on each definition.
-/

namespace Marisol

/-- Rank-two tensors are 3 x 3 matrices (libMesh `RankTwoTensor`, LIBMESH_DIM = 3). -/
abbrev Mat3 (K : Type) := Matrix (Fin 3) (Fin 3) K

/-- Double contraction of two rank-two tensors, `A : B = sum_ij A_ij B_ij`. -/
def ddot {K : Type} [CommRing K] (A B : Mat3 K) : K :=
  ∑ i, ∑ j, A i j * B i j

/-- Outer product of two vectors, `(u ⊗ v)_ij = u_i v_j`. -/
def outerP {K : Type} [CommRing K] (u v : Fin 3 → K) : Mat3 K :=
  Matrix.of fun i j => u i * v j

section PFAmor

/-!
### LinearIsoElasticPFAmor::updateVar  (src/src/materials/LinearIsoElasticPFAmor.C, lines 40-100)

The source first eigendecomposes the mechanical strain
(`_mechanical_strain[_qp].symmetricEigenvaluesEigenvectors(_eigval, _eigvec)`, line 51);
the embedding takes the eigenvalues `eigval` and the eigenvector matrix `eigvec`
(column `i` is the i-th eigenvector, as in `_etens[i](j,k) = _eigvec(j,i) * _eigvec(k,i)`)
as inputs, and the library's contract — that the spectral reconstruction equals the
strain tensor — is a hypothesis of the theorems that mention the mechanical strain.

The C++ expressions `2/3` (line 47) and `1/3` (lines 72-74) are integer divisions;
they are embedded as the integer divisions `((2 : ℤ) / 3)` and `((1 : ℤ) / 3)` cast
into the scalar field, exactly as C++ truncating division behaves on these operands.
-/

variable {K : Type} [LinearOrderedField K]

/-- Outer products of eigenvectors: `_etens[i](j,k) = _eigvec(j,i) * _eigvec(k,i)` (line 57). -/
def etens (eigvec : Mat3 K) (i : Fin 3) : Mat3 K :=
  Matrix.of fun j k => eigvec j i * eigvec k i

/-- Output fields written by `LinearIsoElasticPFAmor::updateVar`, together with the
local variables of the routine that the verification refers to. -/
structure PFAmorOut (K : Type) where
  Kb : K
  etr : K
  etrpos : K
  etrneg : K
  total_strain : Mat3 K
  vol_strain : Mat3 K
  vol_strain_pos : Mat3 K
  vol_strain_neg : Mat3 K
  dev_strain : Mat3 K
  stress0pos : Mat3 K
  stress0neg : Mat3 K
  stress : Mat3 K
  G0_pos : K
  dG0_pos_dstrain : Mat3 K
  dstress_dc : Mat3 K

/-- Embedding of `LinearIsoElasticPFAmor::updateVar` (lines 40-100).
`lam = _elasticity_tensor(0,0,1,1)`, `mu = _elasticity_tensor(0,1,0,1)`,
`c = _c[_qp]`, `kdamage = _kdamage`; `eigval`, `eigvec` are the eigendecomposition
of the mechanical strain computed at line 51. -/
def updateVar (lam mu kdamage c : K) (eigval : Fin 3 → K) (eigvec : Mat3 K) :
    PFAmorOut K :=
  let Kb : K := lam + (((2 : ℤ) / 3 : ℤ) : K) * mu
  let xfac : K := (1 - c) ^ 2 + kdamage
  let etr : K := ∑ i, eigval i
  let etrpos : K := (|etr| + etr) / 2
  let etrneg : K := (|etr| - etr) / 2
  let total_strain : Mat3 K := ∑ i, eigval i • etens eigvec i
  let vol_strain : Mat3 K :=
    Matrix.of fun i j => if i = j then (((1 : ℤ) / 3 : ℤ) : K) * etr else 0
  let vol_strain_pos : Mat3 K :=
    Matrix.of fun i j => if i = j then (((1 : ℤ) / 3 : ℤ) : K) * etrpos else 0
  let vol_strain_neg : Mat3 K :=
    Matrix.of fun i j => if i = j then (((1 : ℤ) / 3 : ℤ) : K) * etrneg else 0
  let dev_strain : Mat3 K := total_strain - vol_strain
  let stress0pos : Mat3 K := (3 * Kb) • vol_strain_pos + (2 * mu) • dev_strain
  let stress0neg : Mat3 K := (3 * Kb) • vol_strain_neg
  { Kb := Kb
    etr := etr
    etrpos := etrpos
    etrneg := etrneg
    total_strain := total_strain
    vol_strain := vol_strain
    vol_strain_pos := vol_strain_pos
    vol_strain_neg := vol_strain_neg
    dev_strain := dev_strain
    stress0pos := stress0pos
    stress0neg := stress0neg
    stress := xfac • stress0pos - stress0neg
    G0_pos := Kb * etrpos ^ 2 / 2 + mu * (∑ i, ∑ j, dev_strain i j * dev_strain j i)
    dG0_pos_dstrain := stress0pos
    dstress_dc := -((2 * (1 - c)) • stress0pos) }

end PFAmor

section Polycrystal

/-!
### ComputePolycrystalElasticityTensorCP::computeQpElasticityTensor
(src/unnamed/part_001, lines 58-142)

The routine accumulates an interpolation weight `sum_h` over the order parameters
whose grain id is valid (`grain_id == FeatureFloodCount::invalid_id` entries are
skipped), clamps it from below with `sum_h = std::max(sum_h, tol)` where
`tol = 1.0e-10` (lines 92-93 and 115), and then divides the accumulated elasticity
tensor (line 94) respectively the accumulated Euler angles (line 116) by the
clamped value.  An entry of the loop is modelled as a pair of the optional grain
id (`none` standing for `invalid_id`) and the coupled variable value
`(*_vals[op_index])[_qp]`.
-/

/-- Clamping tolerance, `const Real tol = 1.0e-10` (line 92). -/
noncomputable def sumHTol : ℝ := 1.0e-10

/-- Interpolation factor for one order parameter,
`h = (1.0 + std::sin(pi * (v - 0.5))) / 2.0` (lines 85 and 106). -/
noncomputable def interpWeight (v : ℝ) : ℝ :=
  (1 + Real.sin (Real.pi * (v - 0.5))) / 2

/-- The loop of lines 78-90 (resp. 99-113): starting from `sum_h = 0.0`, every entry
with a valid grain id contributes `interpWeight` of its variable value; entries with
an invalid grain id are skipped by the `continue`. -/
noncomputable def sumWeights (entries : List (Option ℕ × ℝ)) : ℝ :=
  entries.foldl
    (fun acc e =>
      match e.1 with
      | none => acc
      | some _ => acc + interpWeight e.2) 0

/-- The divisor actually used by the divisions at line 94 (elasticity-tensor
normalization) and line 116 (Euler-angle normalization):
`sum_h = std::max(sum_h, tol)` (lines 93 and 115). -/
noncomputable def clampedSumWeights (entries : List (Option ℕ × ℝ)) : ℝ :=
  max (sumWeights entries) sumHTol

end Polycrystal

section CrystalPlasticity

/-!
### FiniteStrainCrystalPlasticityW0p  (declared in src/unnamed/part_000)

Only the class declaration of `FiniteStrainCrystalPlasticityW0p` (and the name of
its base class `FiniteStrainCrystalPlasticity`) is present in the source tree; the
member-function bodies (`preSolveStatevar`, `solveStatevar`, `postSolveStatevar`,
`update_energies`, `calcResidual`, `getSlipIncrements`) are missing.  Everything in
this section is therefore modelled from the specification document (sections 4.2-4.5,
7 and 8), as noted on each definition.
-/

/-- Modelled from the spec: a slip system is a "fixed geometric descriptor (unit slip
direction, unit slip-plane normal)" (spec section 3); the implementation holding it is
missing from src. -/
structure SlipSys where
  dir : Fin 3 → ℝ
  normal : Fin 3 → ℝ

/-- Modelled from the spec: the plastic-flow dyad `dir ⊗ normal` of a slip system,
used to "assemble the plastic velocity gradient" (spec section 4.4); the
implementation is missing from src. -/
def schmid (s : SlipSys) : Mat3 ℝ := outerP s.dir s.normal

/-- Modelled from the spec: "the Schmid tensor, the symmetric outer product of slip
direction and normal" (spec section 4.4); the implementation is missing from src. -/
noncomputable def schmidSym (s : SlipSys) : Mat3 ℝ :=
  (1 / 2 : ℝ) • (schmid s + (schmid s).transpose)

/-- Modelled from the spec: "the resolved shear stress (double contraction of S with
the slip system's Schmid tensor)" (spec section 4.4); the implementation is missing
from src. -/
noncomputable def resolvedShear (S : Mat3 ℝ) (s : SlipSys) : ℝ :=
  ddot S (schmidSym s)

/-- Modelled from the spec: the parameters and previous-step ("old") state consumed by
one integration-point solve of `FiniteStrainCrystalPlasticityW0p` (spec sections 3
and 6); the implementation is missing from src.  `flowExp` is the power-law flow-rule
exponent, `tangentSolve` the "numerically or analytically formed tangent" solve of the
outer Newton iteration (spec section 4.2), left abstract because the spec fixes no
formula for it.  `C0`, `C1`, `elemLen`, `cwave`, `evolRate` are the Von Neumann and
Landshoff coefficients, the characteristic element length, the wave speed and the
volumetric strain rate of the viscosity terms (spec sections 4.5 and 6). -/
structure CPParams (n : ℕ) where
  sys : Fin n → SlipSys
  a0 : ℝ
  flowExp : ℝ
  h0 : ℝ
  dt : ℝ
  Cel : Fin 3 → Fin 3 → Fin 3 → Fin 3 → ℝ
  F : Mat3 ℝ
  fpOldInv : Mat3 ℝ
  gssOld : Fin n → ℝ
  tangentSolve : Mat3 ℝ → Mat3 ℝ → Mat3 ℝ
  rtol : ℝ
  abstol : ℝ
  gtol : ℝ
  dettol : ℝ
  maxIter : ℕ
  maxIterg : ℕ
  C0 : ℝ
  C1 : ℝ
  elemLen : ℝ
  cwave : ℝ
  evolRate : ℝ
  W0pOld : ℝ

/-- Modelled from the spec: `getSlipIncrements` slip rate, "the slip rate via a
power-law flow rule parameterized by the current resistance" (spec section 4.4):
`a0 * |tau/g|^flowExp * sign(tau)`; the implementation is missing from src. -/
noncomputable def slipRate {n : ℕ} (p : CPParams n) (S : Mat3 ℝ) (g : Fin n → ℝ)
    (s : Fin n) : ℝ :=
  p.a0 * |resolvedShear S (p.sys s) / g s| ^ p.flowExp
    * Real.sign (resolvedShear S (p.sys s))

/-- Modelled from the spec: "the incremental shear strain over the sub-step (slip rate
x Δt)" (spec section 4.4); the implementation is missing from src. -/
noncomputable def slipIncr {n : ℕ} (p : CPParams n) (S : Mat3 ℝ) (g : Fin n → ℝ)
    (s : Fin n) : ℝ :=
  slipRate p S g s * p.dt

/-- Modelled from the spec: per-slip-system hardening rate with "no
softening/recovery term" (spec sections 4.3 and 8), the sum over systems of the
hardening modulus times the magnitude of the slip rate; the implementation is
missing from src. -/
noncomputable def hardeningRate {n : ℕ} (p : CPParams n) (S : Mat3 ℝ)
    (g : Fin n → ℝ) (_s : Fin n) : ℝ :=
  ∑ t, p.h0 * |slipRate p S g t|

/-- Modelled from the spec: the backward-Euler update map of `solveStatevar`,
"resistance_new = resistance_old + Δt * hardening_rate(resistance_new, slip_rate(S,
resistance_new))" (spec section 4.3); the implementation is missing from src. -/
noncomputable def statevarUpdate {n : ℕ} (p : CPParams n) (S : Mat3 ℝ)
    (g : Fin n → ℝ) : Fin n → ℝ :=
  fun s => p.gssOld s + p.dt * hardeningRate p S g s

/-- Modelled from the spec: the inner internal-variable residual of a candidate
resistance vector, the distance to its own backward-Euler update (spec sections 4.3
and 8, "the inner internal-variable residual is below its own tolerance"); the
implementation is missing from src. -/
noncomputable def innerResid {n : ℕ} (p : CPParams n) (S : Mat3 ℝ)
    (g : Fin n → ℝ) : ℝ :=
  Real.sqrt (∑ s, (g s - statevarUpdate p S g s) ^ 2)

/-- Modelled from the spec: the fixed-point iteration of `solveStatevar`, "solved by
local fixed-point iteration over the vector of resistance updates", returning `none`
on "local non-convergence" after the iteration budget is spent (spec section 4.3);
the implementation is missing from src. -/
noncomputable def solveStatevarLoop {n : ℕ} (p : CPParams n) (S : Mat3 ℝ) :
    ℕ → (Fin n → ℝ) → Option (Fin n → ℝ)
  | 0, _ => none
  | k + 1, g =>
    let g2 := statevarUpdate p S g
    if innerResid p S g2 < p.gtol then some g2 else solveStatevarLoop p S k g2

/-- Modelled from the spec: `solveStatevar`, the inner backward-Euler solve of the
per-slip-system resistance variables for a fixed candidate stress, started from the
previous step's converged values (spec sections 4.2 and 4.3); the implementation is
missing from src. -/
noncomputable def solveStatevar {n : ℕ} (p : CPParams n) (S : Mat3 ℝ) :
    Option (Fin n → ℝ) :=
  solveStatevarLoop p S p.maxIterg p.gssOld

/-- Modelled from the spec: the plastic velocity-gradient increment assembled from
the slip increments, `sum_s Δγ_s (dir_s ⊗ normal_s)` (spec section 4.4); the
implementation is missing from src. -/
noncomputable def plasticFlow {n : ℕ} (p : CPParams n) (dgamma : Fin n → ℝ) :
    Mat3 ℝ :=
  ∑ s, dgamma s • schmid (p.sys s)

/-- Modelled from the spec: `calcResidual` "integrates the plastic
deformation-gradient increment over the current sub-step using backward Euler" (spec
section 4.2): the new inverse plastic deformation gradient; the implementation is
missing from src. -/
noncomputable def fpInvNew {n : ℕ} (p : CPParams n) (S : Mat3 ℝ)
    (g : Fin n → ℝ) : Mat3 ℝ :=
  p.fpOldInv * (1 - plasticFlow p (fun s => slipIncr p S g s))

/-- Modelled from the spec: the plastic deformation gradient of the candidate state
(spec section 3, multiplicative decomposition F = Fe Fp); the implementation is
missing from src. -/
noncomputable def fpNew {n : ℕ} (p : CPParams n) (S : Mat3 ℝ)
    (g : Fin n → ℝ) : Mat3 ℝ :=
  (fpInvNew p S g)⁻¹

/-- Modelled from the spec: the elastic deformation gradient implied by the candidate
stress, `Fe = F * Fp⁻¹` (spec section 3); the implementation is missing from src. -/
noncomputable def feNew {n : ℕ} (p : CPParams n) (S : Mat3 ℝ)
    (g : Fin n → ℝ) : Mat3 ℝ :=
  p.F * fpInvNew p S g

/-- Modelled from the spec: the elastic Green-Lagrange strain of an elastic
deformation gradient (spec section 4.1); the implementation is missing from src. -/
noncomputable def elasticStrain (Fe : Mat3 ℝ) : Mat3 ℝ :=
  (1 / 2 : ℝ) • (Fe.transpose * Fe - 1)

/-- Modelled from the spec: the "fourth-order elasticity tensor contraction" C : E
(spec section 4.1); the implementation is missing from src. -/
def elasContract (C4 : Fin 3 → Fin 3 → Fin 3 → Fin 3 → ℝ) (E : Mat3 ℝ) : Mat3 ℝ :=
  Matrix.of fun i j => ∑ k, ∑ l, C4 i j k l * E k l

/-- Modelled from the spec: `calcResidual`, "the residual tensor R(S) = S - C :
Ee(S)" where Ee is the elastic strain implied by S's associated plastic flow (spec
section 4.2); the implementation is missing from src. -/
noncomputable def calcResidual {n : ℕ} (p : CPParams n) (S : Mat3 ℝ)
    (g : Fin n → ℝ) : Mat3 ℝ :=
  S - elasContract p.Cel (elasticStrain (feNew p S g))

/-- Frobenius norm of a rank-two tensor, used for all residual norms. -/
noncomputable def frobNorm (A : Mat3 ℝ) : ℝ :=
  Real.sqrt (∑ i, ∑ j, (A i j) ^ 2)

/-- Modelled from the spec: the Kinematic Predictor, "an initial trial elastic
deformation gradient and trial second Piola-Kirchhoff stress via a fourth-order
elasticity tensor contraction against the elastic Green-Lagrange strain" (spec
section 4.1); the implementation is missing from src. -/
noncomputable def trialStress {n : ℕ} (p : CPParams n) : Mat3 ℝ :=
  elasContract p.Cel (elasticStrain (p.F * p.fpOldInv))

/-- Modelled from the spec: the status result of one integration-point solve: an
accepted state, or the `InvalidState` condition (plastic deformation-gradient
determinant out of tolerance, spec section 7), or the `NonConvergence` condition
(spec sections 4.2, 4.3 and 7) — "a status the caller checks", never a fault. -/
inductive CPResult (n : ℕ) where
  | converged (S : Mat3 ℝ) (g : Fin n → ℝ) (iters : ℕ) : CPResult n
  | invalidState : CPResult n
  | nonConvergence : CPResult n

/-- Modelled from the spec: the outer Newton loop of the Stress-Residual Solver (spec
section 4.2): at each iterate the inner solve re-equilibrates the internal variables
(staggered iteration), the residual is recomputed, and the iterate is accepted when
the "relative residual norm [is] below a fixed tolerance, or absolute norm below a
floor tolerance"; an accepted iterate whose plastic deformation gradient determinant
drifts outside tolerance of 1 is the `InvalidState` condition (spec section 7);
otherwise a Newton step is taken; an exhausted iteration budget is `NonConvergence`.
The implementation is missing from src. -/
noncomputable def solveStressLoop {n : ℕ} (p : CPParams n) (r0 : ℝ) :
    ℕ → Mat3 ℝ → ℕ → CPResult n
  | 0, _, _ => .nonConvergence
  | fuel + 1, S, k =>
    match solveStatevar p S with
    | none => .nonConvergence
    | some g =>
      let R := calcResidual p S g
      if frobNorm R < p.rtol * r0 ∨ frobNorm R < p.abstol then
        if |(fpNew p S g).det - 1| ≤ p.dettol then .converged S g k
        else .invalidState
      else solveStressLoop p r0 fuel (S - p.tangentSolve S R) (k + 1)

/-- Modelled from the spec: the residual norm of the first outer iterate (the trial
stress of the Kinematic Predictor), the reference of the relative convergence check
(spec section 4.2); the implementation is missing from src. -/
noncomputable def initialResNorm {n : ℕ} (p : CPParams n) : ℝ :=
  match solveStatevar p (trialStress p) with
  | none => 0
  | some g0 => frobNorm (calcResidual p (trialStress p) g0)

/-- Modelled from the spec: one full integration-point solve — Kinematic Predictor
seeding the Stress-Residual Solver, inner solve staggered inside the outer Newton
loop, `maxIter` outer iteration budget (spec sections 2 and 4.1-4.3); the
implementation is missing from src. -/
noncomputable def solveStress {n : ℕ} (p : CPParams n) : CPResult n :=
  match solveStatevar p (trialStress p) with
  | none => .nonConvergence
  | some g0 =>
    solveStressLoop p (frobNorm (calcResidual p (trialStress p) g0))
      p.maxIter (trialStress p) 0

/-- Modelled from the spec: `update_energies` incremental plastic work, the "sum over
slip systems of resolved shear stress x shear increment" (spec section 4.5); the
implementation is missing from src. -/
noncomputable def plasticWorkIncr {n : ℕ} (p : CPParams n) (S : Mat3 ℝ)
    (g : Fin n → ℝ) : ℝ :=
  ∑ s, resolvedShear S (p.sys s) * slipIncr p S g s

/-- Modelled from the spec: the quadratic Von Neumann bulk-viscosity pressure with
coefficient `C0`, "proportional to (characteristic element length x volumetric
strain rate)^2 when strain rate is compressive" and "active only under compression"
(spec section 4.5); the implementation is missing from src. -/
noncomputable def vonNeumannP {n : ℕ} (p : CPParams n) : ℝ :=
  if p.evolRate < 0 then p.C0 * (p.elemLen * p.evolRate) ^ 2 else 0

/-- Modelled from the spec: the linear Landshoff damping pressure with coefficient
`C1`, "proportional to characteristic length x wave speed x volumetric strain rate,
also active only under compression" (spec section 4.5); the implementation is
missing from src. -/
noncomputable def landshoffP {n : ℕ} (p : CPParams n) : ℝ :=
  if p.evolRate < 0 then p.C1 * p.elemLen * p.cwave * (-p.evolRate) else 0

/-- Modelled from the spec: the "additional non-negative dissipation increment"
contributed by the two viscosity pressures to the energy total (spec section 4.5):
pressure times compressive volumetric strain rate times Δt; the implementation is
missing from src. -/
noncomputable def viscousDissIncr {n : ℕ} (p : CPParams n) : ℝ :=
  (vonNeumannP p + landshoffP p)
    * (if p.evolRate < 0 then -p.evolRate else 0) * p.dt

/-- Modelled from the spec: `update_energies` accumulated plastic work `_W0p`,
"accumulated onto the previous step's total" `_W0p_old` (spec section 4.5 and the
`_W0p`, `_W0p_old` members declared in src/unnamed/part_000 lines 63-70); the
implementation is missing from src. -/
noncomputable def update_energies {n : ℕ} (p : CPParams n) (S : Mat3 ℝ)
    (g : Fin n → ℝ) : ℝ :=
  p.W0pOld + plasticWorkIncr p S g + viscousDissIncr p

/-- Slip system used by the concrete instances: slip direction `e0`, slip-plane
normal `e1` (orthogonal unit vectors). -/
def sys01 : SlipSys where
  dir := fun i => if i = 0 then 1 else 0
  normal := fun i => if i = 1 then 1 else 0

/-- Concrete parameter instance used by most witnesses: one slip system, unit
coefficients, zero elasticity tensor (so the trial stress vanishes), compressive
volumetric strain rate. -/
noncomputable def pE : CPParams 1 where
  sys := fun _ => sys01
  a0 := 1
  flowExp := 1
  h0 := 1
  dt := 1
  Cel := fun _ _ _ _ => 0
  F := 1
  fpOldInv := 1
  gssOld := fun _ => 1
  tangentSolve := fun _ R => R
  rtol := 1e-8
  abstol := 1e-8
  gtol := 1e-6
  dettol := 1e-6
  maxIter := 1
  maxIterg := 1
  C0 := 1
  C1 := 1
  elemLen := 1
  cwave := 1
  evolRate := -1
  W0pOld := 0

/-- The instance `pE` with the outer iteration budget set to zero, used to witness
the budget-exhaustion status. -/
noncomputable def pE0 : CPParams 1 := { pE with maxIter := 0 }

/-- Elementary shear dyad `e0 ⊗ e1`. -/
def e01 : Mat3 ℝ := Matrix.of fun i j => if i = 0 ∧ j = 1 then 1 else 0

/-- Simple-shear total deformation gradient `1 + e0 ⊗ e1` of the concrete elastic-limit
run. -/
def FC : Mat3 ℝ := 1 + e01

/-- Identity-acting fourth-order elasticity tensor, `C_ijkl = δ_ik δ_jl`. -/
def CelId : Fin 3 → Fin 3 → Fin 3 → Fin 3 → ℝ :=
  fun i j k l => if i = k ∧ j = l then 1 else 0

/-- Concrete parameter instance of the elastic-limit run: one slip system
(`e0`, `e1`), unit reference slip rate and time increment, power-law exponent 1,
zero hardening modulus, identity-acting elasticity tensor, simple-shear deformation
gradient, unit initial resistance. -/
noncomputable def pC : CPParams 1 where
  sys := fun _ => sys01
  a0 := 1
  flowExp := 1
  h0 := 0
  dt := 1
  Cel := CelId
  F := FC
  fpOldInv := 1
  gssOld := fun _ => 1
  tangentSolve := fun _ R => R
  rtol := 1e-8
  abstol := 10
  gtol := 1e-6
  dettol := 1e-6
  maxIter := 1
  maxIterg := 1
  C0 := 1
  C1 := 1
  elemLen := 1
  cwave := 1
  evolRate := -1
  W0pOld := 0

/-- The trial stress of the elastic-limit run: the elastic Green-Lagrange strain of
`FC` pushed through the identity-acting elasticity tensor. -/
noncomputable def SC : Mat3 ℝ :=
  Matrix.of fun i j =>
    if i = 0 ∧ j = 1 then 1 / 2
    else if i = 1 ∧ j = 0 then 1 / 2
    else if i = 1 ∧ j = 1 then 1 / 2
    else 0

/-- The resistance vector accepted by the elastic-limit run (the initial unit
resistances, unchanged because the hardening modulus is zero). -/
def gC : Fin 1 → ℝ := fun _ => 1

/-- The inverse plastic deformation gradient reached by the elastic-limit run,
`1 - (1/2) e0 ⊗ e1`. -/
noncomputable def fpiC : Mat3 ℝ :=
  Matrix.of fun i j =>
    if i = j then 1 else if i = 0 ∧ j = 1 then -(1 / 2) else 0

/-- The outer residual tensor of the elastic-limit run at the trial stress. -/
noncomputable def RC : Mat3 ℝ :=
  Matrix.of fun i j =>
    if i = 0 ∧ j = 1 then 1 / 4
    else if i = 1 ∧ j = 0 then 1 / 4
    else if i = 1 ∧ j = 1 then 3 / 8
    else 0

end CrystalPlasticity

section WitnessData

/-- Eigenvector matrix of the phase-field witness: the identity (the strain is
diagonal in the standard basis). -/
def eigvecW : Mat3 ℚ := 1

/-- Eigenvalues of the phase-field witness strain. -/
def eigvalW : Fin 3 → ℚ := fun i => (i.val : ℚ) + 1

/-- The phase-field witness mechanical strain: the diagonal tensor with entries
1, 2, 3, whose spectral reconstruction from `eigvalW` and `eigvecW` it is. -/
def epsW : Mat3 ℚ := Matrix.of fun i j => if i = j then (i.val : ℚ) + 1 else 0

end WitnessData

section EnergyTheorems

/-- Every summand of the incremental plastic work is non-negative: the power-law slip
increment carries the sign of the resolved shear stress. -/
lemma plastic_work_term_nonneg {n : ℕ} (p : CPParams n) (S : Mat3 ℝ)
    (g : Fin n → ℝ) (ha : 0 ≤ p.a0) (hdt : 0 ≤ p.dt) (s : Fin n) :
    0 ≤ resolvedShear S (p.sys s) * slipIncr p S g s := by
  have hq : 0 ≤ |resolvedShear S (p.sys s) / g s| ^ p.flowExp :=
    Real.rpow_nonneg (abs_nonneg _) _
  have hsg : 0 ≤ Real.sign (resolvedShear S (p.sys s)) * resolvedShear S (p.sys s) :=
    Real.sign_mul_nonneg _
  have hrw : resolvedShear S (p.sys s) * slipIncr p S g s =
      p.a0 * |resolvedShear S (p.sys s) / g s| ^ p.flowExp * p.dt *
        (Real.sign (resolvedShear S (p.sys s)) * resolvedShear S (p.sys s)) := by
    unfold slipIncr slipRate
    ring
  rw [hrw]
  exact mul_nonneg (mul_nonneg (mul_nonneg ha hq) hdt) hsg

/-- The incremental plastic work is non-negative for any stress and resistance
state. -/
lemma plasticWorkIncr_nonneg {n : ℕ} (p : CPParams n) (S : Mat3 ℝ)
    (g : Fin n → ℝ) (ha : 0 ≤ p.a0) (hdt : 0 ≤ p.dt) :
    0 ≤ plasticWorkIncr p S g :=
  Finset.sum_nonneg fun s _ => plastic_work_term_nonneg p S g ha hdt s

/-- The viscous dissipation increment is non-negative whenever the viscosity
coefficients, element length, wave speed and time increment are. -/
lemma viscousDissIncr_nonneg {n : ℕ} (p : CPParams n) (hdt : 0 ≤ p.dt)
    (hC0 : 0 ≤ p.C0) (hC1 : 0 ≤ p.C1) (hL : 0 ≤ p.elemLen) (hcw : 0 ≤ p.cwave) :
    0 ≤ viscousDissIncr p := by
  unfold viscousDissIncr vonNeumannP landshoffP
  by_cases h : p.evolRate < 0
  · rw [if_pos h, if_pos h, if_pos h]
    have h1 : 0 ≤ p.C0 * (p.elemLen * p.evolRate) ^ 2 :=
      mul_nonneg hC0 (sq_nonneg _)
    have h2 : 0 ≤ p.C1 * p.elemLen * p.cwave * -p.evolRate :=
      mul_nonneg (mul_nonneg (mul_nonneg hC1 hL) hcw) (by linarith)
    exact mul_nonneg (mul_nonneg (add_nonneg h1 h2) (by linarith)) hdt
  · rw [if_neg h, if_neg h, if_neg h]
    simp

/-- C1: for every time step at every integration point, the new accumulated plastic
work `_W0p` produced by `update_energies` equals the old value `_W0p_old` plus an
increment (incremental plastic work plus incremental viscous dissipation) that is
non-negative for any strain history, so the accumulated plastic work is
non-decreasing across steps. -/
theorem c1_plastic_work_nondecreasing {n : ℕ} (p : CPParams n) (S : Mat3 ℝ)
    (g : Fin n → ℝ) (ha : 0 ≤ p.a0) (hdt : 0 ≤ p.dt) (hC0 : 0 ≤ p.C0)
    (hC1 : 0 ≤ p.C1) (hL : 0 ≤ p.elemLen) (hcw : 0 ≤ p.cwave) :
    update_energies p S g
        = p.W0pOld + (plasticWorkIncr p S g + viscousDissIncr p) ∧
      0 ≤ plasticWorkIncr p S g + viscousDissIncr p ∧
      p.W0pOld ≤ update_energies p S g := by
  have hincr : 0 ≤ plasticWorkIncr p S g + viscousDissIncr p :=
    add_nonneg (plasticWorkIncr_nonneg p S g ha hdt)
      (viscousDissIncr_nonneg p hdt hC0 hC1 hL hcw)
  refine ⟨by unfold update_energies; ring, hincr, ?_⟩
  unfold update_energies
  linarith

/-- C2: the Von Neumann (quadratic, coefficient `C0`) and Landshoff (linear,
coefficient `C1`) viscosity pressure terms are zero under tensile (expansive)
volumetric strain rate, and strictly positive under compressive volumetric strain
rate, for positive `C0`, `C1`, element length and wave speed. -/
theorem c2_viscosity_sign_gating {n : ℕ} (p : CPParams n) (hC0 : 0 < p.C0)
    (hC1 : 0 < p.C1) (hL : 0 < p.elemLen) (hcw : 0 < p.cwave) :
    (0 ≤ p.evolRate → vonNeumannP p = 0 ∧ landshoffP p = 0) ∧
      (p.evolRate < 0 → 0 < vonNeumannP p ∧ 0 < landshoffP p) := by
  constructor
  · intro h
    unfold vonNeumannP landshoffP
    rw [if_neg (not_lt.mpr h), if_neg (not_lt.mpr h)]
    exact ⟨rfl, rfl⟩
  · intro h
    unfold vonNeumannP landshoffP
    rw [if_pos h, if_pos h]
    constructor
    · have hne : p.elemLen * p.evolRate ≠ 0 :=
        mul_ne_zero (ne_of_gt hL) (ne_of_lt h)
      exact mul_pos hC0 (pow_two_pos_of_ne_zero hne)
    · exact mul_pos (mul_pos (mul_pos hC1 hL) hcw) (by linarith)

/-- Witness for C1 at the concrete instance `pE`, zero candidate stress and unit
resistances. -/
theorem c1_witness : pE.W0pOld ≤ update_energies pE 0 (fun _ => 1) :=
  (c1_plastic_work_nondecreasing pE 0 (fun _ => 1) (by norm_num [pE])
    (by norm_num [pE]) (by norm_num [pE]) (by norm_num [pE]) (by norm_num [pE])
    (by norm_num [pE])).2.2

/-- Witness for C2 at the concrete instance `pE`, whose volumetric strain rate is
compressive. -/
theorem c2_witness : 0 < vonNeumannP pE ∧ 0 < landshoffP pE :=
  (c2_viscosity_sign_gating pE (by norm_num [pE]) (by norm_num [pE])
    (by norm_num [pE]) (by norm_num [pE])).2 (by norm_num [pE])

end EnergyTheorems

section PolycrystalTheorems

/-- Folding the weight accumulation over a list whose grain ids are all invalid
leaves the accumulator unchanged. -/
lemma sumWeights_all_invalid (vs : List ℝ) (acc : ℝ) :
    (vs.map fun v => ((none : Option ℕ), v)).foldl
      (fun acc e =>
        match e.1 with
        | none => acc
        | some _ => acc + interpWeight e.2) acc = acc := by
  induction vs generalizing acc with
  | nil => rfl
  | cons v vs ih => simpa using ih acc

/-- C10: `sum_h` is clamped from below to the tolerance `1.0e-10` before each of the
two divisions in `computeQpElasticityTensor`, so both the elasticity-tensor
normalization and the Euler-angle normalization divide by a strictly positive
divisor for every input; when every grain id is invalid, the accumulated weight is
zero and the divisor is exactly the tolerance. -/
theorem c10_clamped_divisor_positive (e1 e2 : List (Option ℕ × ℝ)) :
    (0 < clampedSumWeights e1 ∧ 0 < clampedSumWeights e2) ∧
      ∀ vs : List ℝ,
        sumWeights (vs.map fun v => ((none : Option ℕ), v)) = 0 ∧
          clampedSumWeights (vs.map fun v => ((none : Option ℕ), v)) = sumHTol := by
  have htol : (0 : ℝ) < sumHTol := by norm_num [sumHTol]
  refine ⟨⟨lt_of_lt_of_le htol (le_max_right _ _),
    lt_of_lt_of_le htol (le_max_right _ _)⟩, fun vs => ?_⟩
  have hz : sumWeights (vs.map fun v => ((none : Option ℕ), v)) = 0 :=
    sumWeights_all_invalid vs 0
  refine ⟨hz, ?_⟩
  unfold clampedSumWeights
  rw [hz]
  exact max_eq_right (le_of_lt htol)

end PolycrystalTheorems

section PFAmorTheorems

variable {K : Type} [LinearOrderedField K]

/-- The stress written by `updateVar`, entrywise: damage factor times the positive
part minus the negative part (source line 83). -/
lemma updateVar_stress_apply (lam mu kdamage c : K) (eigval : Fin 3 → K)
    (eigvec : Mat3 K) (i j : Fin 3) :
    (updateVar lam mu kdamage c eigval eigvec).stress i j
      = ((1 - c) ^ 2 + kdamage)
          * (updateVar lam mu kdamage c eigval eigvec).stress0pos i j
        - (updateVar lam mu kdamage c eigval eigvec).stress0neg i j := by
  have e : (updateVar lam mu kdamage c eigval eigvec).stress
      = ((1 - c) ^ 2 + kdamage)
          • (updateVar lam mu kdamage c eigval eigvec).stress0pos
        - (updateVar lam mu kdamage c eigval eigvec).stress0neg := rfl
  rw [e]
  simp [Matrix.sub_apply, smul_eq_mul]

/-- The stress derivative written by `updateVar`, entrywise (source line 99). -/
lemma updateVar_dstress_apply (lam mu kdamage c : K) (eigval : Fin 3 → K)
    (eigvec : Mat3 K) (i j : Fin 3) :
    (updateVar lam mu kdamage c eigval eigvec).dstress_dc i j
      = -(2 * (1 - c) * (updateVar lam mu kdamage c eigval eigvec).stress0pos i j) := by
  have e : (updateVar lam mu kdamage c eigval eigvec).dstress_dc
      = -((2 * (1 - c)) • (updateVar lam mu kdamage c eigval eigvec).stress0pos) := rfl
  rw [e]
  simp [Matrix.neg_apply, smul_eq_mul]

/-- `stress0pos` does not depend on the damage variable. -/
lemma updateVar_stress0pos_c_eq (lam mu kdamage : K) (eigval : Fin 3 → K)
    (eigvec : Mat3 K) (c x : K) :
    (updateVar lam mu kdamage x eigval eigvec).stress0pos
      = (updateVar lam mu kdamage c eigval eigvec).stress0pos := rfl

/-- `stress0neg` does not depend on the damage variable. -/
lemma updateVar_stress0neg_c_eq (lam mu kdamage : K) (eigval : Fin 3 → K)
    (eigvec : Mat3 K) (c x : K) :
    (updateVar lam mu kdamage x eigval eigvec).stress0neg
      = (updateVar lam mu kdamage c eigval eigvec).stress0neg := rfl

/-- C8: in `LinearIsoElasticPFAmor::updateVar` the integer divisions `1/3` and `2/3`
evaluate to 0, so for every mechanical-strain input (given by its eigendecomposition,
with `hdecomp` the spectral-reconstruction contract of the eigensolver) and damage
value `c`: `vol_strain`, `vol_strain_pos` and `vol_strain_neg` are the zero tensor,
`Kb` equals `lambda`, `dev_strain` equals the total strain, `stress0neg` is the zero
tensor, and the computed stress equals `((1-c)^2 + kdamage) * 2 * mu * strain` — the
volumetric split is inert and the damage factor multiplies the whole stress even
under pure compression. -/
theorem c8_integer_division_inert_split (lam mu kdamage c : K)
    (eigval : Fin 3 → K) (eigvec : Mat3 K) (eps : Mat3 K)
    (hdecomp : ∑ i, eigval i • etens eigvec i = eps) :
    (updateVar lam mu kdamage c eigval eigvec).vol_strain = 0 ∧
      (updateVar lam mu kdamage c eigval eigvec).vol_strain_pos = 0 ∧
      (updateVar lam mu kdamage c eigval eigvec).vol_strain_neg = 0 ∧
      (updateVar lam mu kdamage c eigval eigvec).Kb = lam ∧
      (updateVar lam mu kdamage c eigval eigvec).dev_strain
        = (updateVar lam mu kdamage c eigval eigvec).total_strain ∧
      (updateVar lam mu kdamage c eigval eigvec).stress0neg = 0 ∧
      (updateVar lam mu kdamage c eigval eigvec).stress
        = ((1 - c) ^ 2 + kdamage) • ((2 * mu) • eps) := by
  have hz13 : ((1 : ℤ) / 3 : ℤ) = 0 := by decide
  have hz23 : ((2 : ℤ) / 3 : ℤ) = 0 := by decide
  have hvol : (updateVar lam mu kdamage c eigval eigvec).vol_strain = 0 := by
    have e : (updateVar lam mu kdamage c eigval eigvec).vol_strain
        = Matrix.of fun i j =>
            if i = j then (((1 : ℤ) / 3 : ℤ) : K) * (∑ k, eigval k) else 0 := rfl
    ext i j
    simp [e, hz13]
  have hvolp : (updateVar lam mu kdamage c eigval eigvec).vol_strain_pos = 0 := by
    have e : (updateVar lam mu kdamage c eigval eigvec).vol_strain_pos
        = Matrix.of fun i j =>
            if i = j then
              (((1 : ℤ) / 3 : ℤ) : K) * ((|∑ k, eigval k| + ∑ k, eigval k) / 2)
            else 0 := rfl
    ext i j
    simp [e, hz13]
  have hvoln : (updateVar lam mu kdamage c eigval eigvec).vol_strain_neg = 0 := by
    have e : (updateVar lam mu kdamage c eigval eigvec).vol_strain_neg
        = Matrix.of fun i j =>
            if i = j then
              (((1 : ℤ) / 3 : ℤ) : K) * ((|∑ k, eigval k| - ∑ k, eigval k) / 2)
            else 0 := rfl
    ext i j
    simp [e, hz13]
  have hKb : (updateVar lam mu kdamage c eigval eigvec).Kb = lam := by
    have e : (updateVar lam mu kdamage c eigval eigvec).Kb
        = lam + (((2 : ℤ) / 3 : ℤ) : K) * mu := rfl
    rw [e, hz23]
    simp
  have htot : (updateVar lam mu kdamage c eigval eigvec).total_strain = eps := hdecomp
  have hdev : (updateVar lam mu kdamage c eigval eigvec).dev_strain
      = (updateVar lam mu kdamage c eigval eigvec).total_strain := by
    have e : (updateVar lam mu kdamage c eigval eigvec).dev_strain
        = (updateVar lam mu kdamage c eigval eigvec).total_strain
          - (updateVar lam mu kdamage c eigval eigvec).vol_strain := rfl
    rw [e, hvol, sub_zero]
  have hneg : (updateVar lam mu kdamage c eigval eigvec).stress0neg = 0 := by
    have e : (updateVar lam mu kdamage c eigval eigvec).stress0neg
        = (3 * (updateVar lam mu kdamage c eigval eigvec).Kb)
            • (updateVar lam mu kdamage c eigval eigvec).vol_strain_neg := rfl
    rw [e, hvoln, smul_zero]
  have hpos : (updateVar lam mu kdamage c eigval eigvec).stress0pos
      = (2 * mu) • eps := by
    have e : (updateVar lam mu kdamage c eigval eigvec).stress0pos
        = (3 * (updateVar lam mu kdamage c eigval eigvec).Kb)
            • (updateVar lam mu kdamage c eigval eigvec).vol_strain_pos
          + (2 * mu) • (updateVar lam mu kdamage c eigval eigvec).dev_strain := rfl
    rw [e, hvolp, smul_zero, zero_add, hdev, htot]
  have hstr : (updateVar lam mu kdamage c eigval eigvec).stress
      = ((1 - c) ^ 2 + kdamage) • ((2 * mu) • eps) := by
    have e : (updateVar lam mu kdamage c eigval eigvec).stress
        = ((1 - c) ^ 2 + kdamage)
            • (updateVar lam mu kdamage c eigval eigvec).stress0pos
          - (updateVar lam mu kdamage c eigval eigvec).stress0neg := rfl
    rw [e, hpos, hneg, sub_zero]
  exact ⟨hvol, hvolp, hvoln, hKb, hdev, hneg, hstr⟩

/-- The spectral reconstruction of the witness eigensystem equals the witness
strain. -/
lemma epsW_decomp : ∑ i, eigvalW i • etens eigvecW i = epsW := by
  ext i j
  fin_cases i <;> fin_cases j <;>
    simp [eigvalW, eigvecW, epsW, etens, Fin.sum_univ_three, Matrix.sum_apply,
      Matrix.one_apply, smul_eq_mul]

/-- Witness for C8 at a concrete rational input: strain with eigenvalues 1, 2, 3 in
the standard basis, `lambda = 5`, `mu = 7`, `kdamage = 1/1000`, `c = 1/4`. -/
theorem c8_witness :
    (updateVar (5 : ℚ) 7 (1 / 1000) (1 / 4) eigvalW eigvecW).stress
      = ((1 - (1 / 4 : ℚ)) ^ 2 + 1 / 1000) • (((2 : ℚ) * 7) • epsW) :=
  (c8_integer_division_inert_split 5 7 (1 / 1000) (1 / 4) eigvalW eigvecW epsW
    epsW_decomp).2.2.2.2.2.2

/-- C9: the derivative property `_dstress_dc` written by
`LinearIsoElasticPFAmor::updateVar` is, entrywise, the exact derivative with respect
to the damage variable `c` of the stress the routine computes:
`d/dc [stress0pos * ((1-c)^2 + kdamage) - stress0neg] = -2 * (1-c) * stress0pos`,
`stress0pos` and `stress0neg` being independent of `c`. -/
theorem c9_dstress_dc_exact_derivative (lam mu kdamage : ℝ) (eigval : Fin 3 → ℝ)
    (eigvec : Mat3 ℝ) (c : ℝ) (i j : Fin 3) :
    HasDerivAt (fun x => (updateVar lam mu kdamage x eigval eigvec).stress i j)
      ((updateVar lam mu kdamage c eigval eigvec).dstress_dc i j) c := by
  have hfun : (fun x => (updateVar lam mu kdamage x eigval eigvec).stress i j)
      = fun x =>
          ((1 - x) ^ 2 + kdamage)
              * (updateVar lam mu kdamage c eigval eigvec).stress0pos i j
            - (updateVar lam mu kdamage c eigval eigvec).stress0neg i j := by
    funext x
    rw [updateVar_stress_apply lam mu kdamage x eigval eigvec i j,
      updateVar_stress0pos_c_eq lam mu kdamage eigval eigvec c x,
      updateVar_stress0neg_c_eq lam mu kdamage eigval eigvec c x]
  rw [hfun, updateVar_dstress_apply]
  have h1 : HasDerivAt (fun x : ℝ => 1 - x) (-1) c := (hasDerivAt_id c).const_sub 1
  have h2 : HasDerivAt (fun x : ℝ => (1 - x) ^ 2)
      (((2 : ℕ) : ℝ) * (1 - c) ^ (2 - 1) * (-1)) c := h1.pow 2
  have h3 := (h2.add_const kdamage).mul_const
    ((updateVar lam mu kdamage c eigval eigvec).stress0pos i j)
  have h4 := h3.sub_const
    ((updateVar lam mu kdamage c eigval eigvec).stress0neg i j)
  convert h4 using 1
  push_cast
  ring

end PFAmorTheorems

section SolverLemmas

/-- One-step unfolding of the inner fixed-point loop. -/
lemma solveStatevarLoop_succ {n : ℕ} (p : CPParams n) (S : Mat3 ℝ) (k : ℕ)
    (g : Fin n → ℝ) :
    solveStatevarLoop p S (k + 1) g =
      if innerResid p S (statevarUpdate p S g) < p.gtol then
        some (statevarUpdate p S g)
      else solveStatevarLoop p S k (statevarUpdate p S g) := rfl

/-- One-step unfolding of the outer Newton loop. -/
lemma solveStressLoop_succ {n : ℕ} (p : CPParams n) (r0 : ℝ) (fuel : ℕ)
    (S : Mat3 ℝ) (k : ℕ) :
    solveStressLoop p r0 (fuel + 1) S k =
      match solveStatevar p S with
      | none => CPResult.nonConvergence
      | some g =>
        if frobNorm (calcResidual p S g) < p.rtol * r0 ∨
            frobNorm (calcResidual p S g) < p.abstol then
          if |(fpNew p S g).det - 1| ≤ p.dettol then CPResult.converged S g k
          else CPResult.invalidState
        else solveStressLoop p r0 fuel (S - p.tangentSolve S (calcResidual p S g))
          (k + 1) := rfl

/-- One-step unfolding of the outer Newton loop when the inner solve fails. -/
lemma solveStressLoop_succ_none {n : ℕ} (p : CPParams n) (r0 : ℝ) (fuel : ℕ)
    (S : Mat3 ℝ) (k : ℕ) (hsv : solveStatevar p S = none) :
    solveStressLoop p r0 (fuel + 1) S k = CPResult.nonConvergence := by
  rw [solveStressLoop_succ, hsv]

/-- One-step unfolding of the outer Newton loop when the inner solve returns. -/
lemma solveStressLoop_succ_some {n : ℕ} (p : CPParams n) (r0 : ℝ) (fuel : ℕ)
    (S : Mat3 ℝ) (k : ℕ) (g : Fin n → ℝ) (hsv : solveStatevar p S = some g) :
    solveStressLoop p r0 (fuel + 1) S k =
      if frobNorm (calcResidual p S g) < p.rtol * r0 ∨
          frobNorm (calcResidual p S g) < p.abstol then
        if |(fpNew p S g).det - 1| ≤ p.dettol then CPResult.converged S g k
        else CPResult.invalidState
      else solveStressLoop p r0 fuel (S - p.tangentSolve S (calcResidual p S g))
        (k + 1) := by
  rw [solveStressLoop_succ, hsv]

/-- The full solve when the inner solve fails at the trial stress. -/
lemma solveStress_eq_none {n : ℕ} (p : CPParams n)
    (hsv : solveStatevar p (trialStress p) = none) :
    solveStress p = CPResult.nonConvergence := by
  unfold solveStress
  rw [hsv]

/-- The full solve when the inner solve returns at the trial stress. -/
lemma solveStress_eq_some {n : ℕ} (p : CPParams n) (g0 : Fin n → ℝ)
    (hsv : solveStatevar p (trialStress p) = some g0) :
    solveStress p =
      solveStressLoop p (frobNorm (calcResidual p (trialStress p) g0)) p.maxIter
        (trialStress p) 0 := by
  unfold solveStress
  rw [hsv]

/-- Any resistance vector returned by the inner loop satisfies the inner residual
tolerance and is the backward-Euler update of some iterate. -/
lemma solveStatevarLoop_spec {n : ℕ} (p : CPParams n) (S : Mat3 ℝ) :
    ∀ (k : ℕ) (g g' : Fin n → ℝ), solveStatevarLoop p S k g = some g' →
      innerResid p S g' < p.gtol ∧ ∃ g0, g' = statevarUpdate p S g0 := by
  intro k
  induction k with
  | zero => intro g g' h; exact Option.noConfusion h
  | succ k ih =>
    intro g g' h
    rw [solveStatevarLoop_succ] at h
    by_cases hc : innerResid p S (statevarUpdate p S g) < p.gtol
    · rw [if_pos hc] at h
      have he := Option.some.inj h
      subst he
      exact ⟨hc, g, rfl⟩
    · rw [if_neg hc] at h
      exact ih _ _ h

/-- Any resistance vector returned by `solveStatevar` satisfies the inner residual
tolerance and is the backward-Euler update of some iterate. -/
lemma solveStatevar_spec {n : ℕ} (p : CPParams n) (S : Mat3 ℝ) (g' : Fin n → ℝ)
    (h : solveStatevar p S = some g') :
    innerResid p S g' < p.gtol ∧ ∃ g0, g' = statevarUpdate p S g0 :=
  solveStatevarLoop_spec p S p.maxIterg p.gssOld g' h

/-- The hardening rate is non-negative when the hardening modulus is (no
softening/recovery term). -/
lemma hardeningRate_nonneg {n : ℕ} (p : CPParams n) (S : Mat3 ℝ) (g : Fin n → ℝ)
    (s : Fin n) (hh0 : 0 ≤ p.h0) : 0 ≤ hardeningRate p S g s :=
  Finset.sum_nonneg fun _t _ => mul_nonneg hh0 (abs_nonneg _)

/-- The backward-Euler update never decreases a resistance below its old value when
the time increment and hardening modulus are non-negative. -/
lemma statevarUpdate_ge_old {n : ℕ} (p : CPParams n) (S : Mat3 ℝ) (g : Fin n → ℝ)
    (s : Fin n) (hdt : 0 ≤ p.dt) (hh0 : 0 ≤ p.h0) :
    p.gssOld s ≤ statevarUpdate p S g s :=
  le_add_of_nonneg_right (mul_nonneg hdt (hardeningRate_nonneg p S g s hh0))

/-- Everything that holds at any state accepted by the outer loop: the inner solve
produced the resistances, both convergence checks passed, the determinant check
passed, and the iteration counter stayed inside the budget. -/
lemma solveStressLoop_spec {n : ℕ} (p : CPParams n) (r0 : ℝ) :
    ∀ (fuel : ℕ) (S : Mat3 ℝ) (k : ℕ) (S' : Mat3 ℝ) (g' : Fin n → ℝ) (it : ℕ),
      solveStressLoop p r0 fuel S k = CPResult.converged S' g' it →
      solveStatevar p S' = some g' ∧
        (frobNorm (calcResidual p S' g') < p.rtol * r0 ∨
          frobNorm (calcResidual p S' g') < p.abstol) ∧
        |(fpNew p S' g').det - 1| ≤ p.dettol ∧ it < k + fuel := by
  intro fuel
  induction fuel with
  | zero => intro S k S' g' it h; exact CPResult.noConfusion h
  | succ fuel ih =>
    intro S k S' g' it h
    cases hsv : solveStatevar p S with
    | none =>
      rw [solveStressLoop_succ_none p r0 fuel S k hsv] at h
      exact CPResult.noConfusion h
    | some g =>
      rw [solveStressLoop_succ_some p r0 fuel S k g hsv] at h
      by_cases hres : frobNorm (calcResidual p S g) < p.rtol * r0 ∨
          frobNorm (calcResidual p S g) < p.abstol
      · rw [if_pos hres] at h
        by_cases hdet : |(fpNew p S g).det - 1| ≤ p.dettol
        · rw [if_pos hdet] at h
          cases h
          exact ⟨hsv, hres, hdet, by omega⟩
        · rw [if_neg hdet] at h
          exact CPResult.noConfusion h
      · rw [if_neg hres] at h
        obtain ⟨h1, h2, h3, h4⟩ := ih _ _ _ _ _ h
        exact ⟨h1, h2, h3, by omega⟩

/-- Everything that holds at any state accepted by the full solve. -/
lemma solveStress_spec {n : ℕ} (p : CPParams n) (S' : Mat3 ℝ) (g' : Fin n → ℝ)
    (it : ℕ) (h : solveStress p = CPResult.converged S' g' it) :
    solveStatevar p S' = some g' ∧
      (frobNorm (calcResidual p S' g') < p.rtol * initialResNorm p ∨
        frobNorm (calcResidual p S' g') < p.abstol) ∧
      |(fpNew p S' g').det - 1| ≤ p.dettol ∧ it < p.maxIter := by
  cases hsv : solveStatevar p (trialStress p) with
  | none =>
    rw [solveStress_eq_none p hsv] at h
    exact CPResult.noConfusion h
  | some g0 =>
    rw [solveStress_eq_some p g0 hsv] at h
    have hspec := solveStressLoop_spec p
      (frobNorm (calcResidual p (trialStress p) g0)) p.maxIter (trialStress p) 0
      S' g' it h
    have hr0 : initialResNorm p = frobNorm (calcResidual p (trialStress p) g0) := by
      unfold initialResNorm
      rw [hsv]
    rw [hr0]
    obtain ⟨h1, h2, h3, h4⟩ := hspec
    exact ⟨h1, h2, h3, by omega⟩

end SolverLemmas

section SolverTheorems

/-- The resolved shear stress of the zero stress tensor vanishes on every slip
system. -/
lemma resolvedShear_zero_stress (s : SlipSys) : resolvedShear 0 s = 0 := by
  simp [resolvedShear, ddot]

/-- The power-law slip rate vanishes at zero stress. -/
lemma slipRate_zero_stress {n : ℕ} (p : CPParams n) (g : Fin n → ℝ) (s : Fin n) :
    slipRate p 0 g s = 0 := by
  simp [slipRate, resolvedShear_zero_stress, Real.sign_zero]

/-- The hardening rate vanishes at zero stress. -/
lemma hardeningRate_zero_stress {n : ℕ} (p : CPParams n) (g : Fin n → ℝ)
    (s : Fin n) : hardeningRate p 0 g s = 0 := by
  simp [hardeningRate, slipRate_zero_stress]

/-- At zero stress the backward-Euler update of `pE` fixes the unit resistances. -/
lemma pE_statevarUpdate (g : Fin 1 → ℝ) :
    statevarUpdate pE 0 g = fun _ => 1 := by
  funext s
  simp [statevarUpdate, hardeningRate_zero_stress, pE]

/-- The inner residual of the unit resistances vanishes for `pE` at zero stress. -/
lemma pE_innerResid : innerResid pE 0 (fun _ => 1) = 0 := by
  simp [innerResid, pE_statevarUpdate]

/-- The inner solve of `pE` at zero stress returns the unit resistances. -/
lemma pE_solveStatevar : solveStatevar pE 0 = some fun _ => 1 := by
  show solveStatevarLoop pE 0 (0 + 1) pE.gssOld = some fun _ => 1
  rw [solveStatevarLoop_succ, pE_statevarUpdate, pE_innerResid,
    if_pos (show (0 : ℝ) < pE.gtol by norm_num [pE])]

/-- The trial stress of `pE` is zero (its elasticity tensor is zero). -/
lemma pE_trial : trialStress pE = 0 := by
  ext i j
  simp [trialStress, elasContract, pE]

/-- The outer residual of `pE` at zero stress is zero. -/
lemma pE_calcResidual (g : Fin 1 → ℝ) : calcResidual pE 0 g = 0 := by
  ext i j
  simp [calcResidual, elasContract, pE]

/-- The Frobenius norm of the zero tensor. -/
lemma frobNorm_zero : frobNorm 0 = 0 := by
  simp [frobNorm]

/-- The plastic deformation gradient of `pE` at zero stress stays at the identity. -/
lemma pE_fpInvNew (g : Fin 1 → ℝ) : fpInvNew pE 0 g = 1 := by
  simp [fpInvNew, plasticFlow, slipIncr, slipRate_zero_stress, pE]

/-- The determinant of the plastic deformation gradient accepted by `pE`. -/
lemma pE_det (g : Fin 1 → ℝ) : (fpNew pE 0 g).det = 1 := by
  unfold fpNew
  rw [pE_fpInvNew, Matrix.det_nonsing_inv]
  simp

/-- The concrete run of `pE`: the solver accepts the zero stress and the unit
resistances at the first outer iterate. -/
lemma pE_run : solveStress pE = CPResult.converged 0 (fun _ => 1) 0 := by
  have hsv : solveStatevar pE (trialStress pE) = some fun _ => 1 := by
    rw [pE_trial]
    exact pE_solveStatevar
  rw [solveStress_eq_some pE (fun _ => 1) hsv, pE_trial]
  show solveStressLoop pE (frobNorm (calcResidual pE 0 fun _ => 1)) (0 + 1) 0 0
    = CPResult.converged 0 (fun _ => 1) 0
  rw [solveStressLoop_succ_some pE _ 0 0 0 (fun _ => 1) pE_solveStatevar]
  rw [pE_calcResidual, frobNorm_zero]
  rw [if_pos (Or.inr (show (0 : ℝ) < pE.abstol by norm_num [pE]))]
  rw [if_pos (show |(fpNew pE 0 fun _ => 1).det - 1| ≤ pE.dettol by
    rw [pE_det]; norm_num [pE])]

/-- C3: whenever the outer stress-residual Newton solve reports convergence for a
candidate stress `S`, the outer residual norm is below the configured tolerance
(relative to the first iterate's norm, or below the absolute floor) and,
simultaneously, the inner internal-variable residual produced by `solveStatevar` is
below its own tolerance — both conditions hold jointly at every accepted state. -/
theorem c3_joint_residual_consistency {n : ℕ} (p : CPParams n) (S : Mat3 ℝ)
    (g : Fin n → ℝ) (it : ℕ) (h : solveStress p = CPResult.converged S g it) :
    (frobNorm (calcResidual p S g) < p.rtol * initialResNorm p ∨
        frobNorm (calcResidual p S g) < p.abstol) ∧
      innerResid p S g < p.gtol := by
  obtain ⟨hsv, hres, _, _⟩ := solveStress_spec p S g it h
  exact ⟨hres, (solveStatevar_spec p S g hsv).1⟩

/-- Witness for C3 at the concrete converged run of `pE`. -/
theorem c3_witness :
    (frobNorm (calcResidual pE 0 fun _ => 1) < pE.rtol * initialResNorm pE ∨
        frobNorm (calcResidual pE 0 fun _ => 1) < pE.abstol) ∧
      innerResid pE 0 (fun _ => 1) < pE.gtol :=
  c3_joint_residual_consistency pE 0 (fun _ => 1) 0 pE_run

/-- C4: for every converged accepted state of the solve, the determinant of the
plastic deformation gradient lies within the configured tolerance (1e-6 in the
concrete instances) of 1 — isochoric plastic flow; a state whose determinant drifts
outside the tolerance is rejected as `InvalidState` instead of accepted. -/
theorem c4_isochoric_plastic_flow {n : ℕ} (p : CPParams n) (S : Mat3 ℝ)
    (g : Fin n → ℝ) (it : ℕ) (h : solveStress p = CPResult.converged S g it) :
    |(fpNew p S g).det - 1| ≤ p.dettol :=
  (solveStress_spec p S g it h).2.2.1

/-- Witness for C4 at the concrete converged run of `pE`, whose determinant
tolerance is 1e-6. -/
theorem c4_witness : |(fpNew pE 0 fun _ => 1).det - 1| ≤ pE.dettol :=
  c4_isochoric_plastic_flow pE 0 (fun _ => 1) 0 pE_run

/-- C5: when the hardening law has no softening or recovery term (non-negative
hardening modulus) and the time increment is non-negative, every slip system's
resistance in the accepted snapshot after a converged step is greater than or equal
to its old (previous converged) value. -/
theorem c5_hardening_monotonicity {n : ℕ} (p : CPParams n) (S : Mat3 ℝ)
    (g : Fin n → ℝ) (it : ℕ) (h : solveStress p = CPResult.converged S g it)
    (hdt : 0 ≤ p.dt) (hh0 : 0 ≤ p.h0) : ∀ s, p.gssOld s ≤ g s := by
  obtain ⟨hsv, _, _, _⟩ := solveStress_spec p S g it h
  obtain ⟨_, g0, rfl⟩ := solveStatevar_spec p S g hsv
  intro s
  exact statevarUpdate_ge_old p S g0 s hdt hh0

/-- Witness for C5 at the concrete converged run of `pE`. -/
theorem c5_witness : pE.gssOld 0 ≤ 1 :=
  c5_hardening_monotonicity pE 0 (fun _ => 1) 0 pE_run (by norm_num [pE])
    (by norm_num [pE]) 0

/-- C7: non-convergence of either Newton loop is reported to the caller as a status
value, never as a fault, and the core performs no internal retries: an inner failure
at the trial stress yields `nonConvergence`; an exhausted outer budget yields
`nonConvergence`; an exhausted inner budget yields `none` from `solveStatevar`; any
accepted state was reached within the fixed outer iteration budget; and every solve
terminates in exactly one of the three status values. -/
theorem c7_nonconvergence_is_status {n : ℕ} (p : CPParams n) :
    (solveStatevar p (trialStress p) = none →
        solveStress p = CPResult.nonConvergence) ∧
      (p.maxIter = 0 → solveStress p = CPResult.nonConvergence) ∧
      (∀ S, p.maxIterg = 0 → solveStatevar p S = none) ∧
      (∀ S g it, solveStress p = CPResult.converged S g it → it < p.maxIter) ∧
      ((∃ S g it, solveStress p = CPResult.converged S g it) ∨
        solveStress p = CPResult.invalidState ∨
        solveStress p = CPResult.nonConvergence) := by
  refine ⟨fun h => solveStress_eq_none p h, fun h => ?_, fun S h => ?_,
    fun S g it h => (solveStress_spec p S g it h).2.2.2, ?_⟩
  · cases hsv : solveStatevar p (trialStress p) with
    | none => exact solveStress_eq_none p hsv
    | some g0 =>
      rw [solveStress_eq_some p g0 hsv, h]
      rfl
  · unfold solveStatevar
    rw [h]
    rfl
  · cases hr : solveStress p with
    | converged S g it => exact Or.inl ⟨S, g, it, rfl⟩
    | invalidState => exact Or.inr (Or.inl rfl)
    | nonConvergence => exact Or.inr (Or.inr rfl)

/-- Witness for C7: with a zero outer iteration budget the solve reports
`nonConvergence` as a value. -/
theorem c7_witness : solveStress pE0 = CPResult.nonConvergence :=
  (c7_nonconvergence_is_status pE0).2.1 rfl

end SolverTheorems

section ElasticLimit

/-- The contraction with the identity-acting elasticity tensor is the identity. -/
lemma elasContract_CelId (E : Mat3 ℝ) : elasContract CelId E = E := by
  ext i j
  fin_cases i <;> fin_cases j <;>
    simp [elasContract, CelId, Fin.sum_univ_three]

/-- The plastic-flow dyad of the concrete slip system. -/
lemma schmid_sys01 : schmid sys01 = e01 := by
  ext i j
  fin_cases i <;> fin_cases j <;> simp [schmid, outerP, sys01, e01]

/-- The hardening rate of `pC` vanishes identically (zero hardening modulus). -/
lemma pC_hardeningRate (S : Mat3 ℝ) (g : Fin 1 → ℝ) (s : Fin 1) :
    hardeningRate pC S g s = 0 := by
  unfold hardeningRate
  rw [show pC.h0 = (0 : ℝ) from rfl]
  simp

/-- The backward-Euler update of `pC` fixes the unit resistances for every stress. -/
lemma pC_statevarUpdate (S : Mat3 ℝ) (g : Fin 1 → ℝ) :
    statevarUpdate pC S g = gC := by
  funext s
  unfold statevarUpdate
  rw [pC_hardeningRate, mul_zero, add_zero]
  rfl

/-- The inner residual of the unit resistances vanishes for `pC` at every stress. -/
lemma pC_innerResid (S : Mat3 ℝ) : innerResid pC S gC = 0 := by
  simp [innerResid, pC_statevarUpdate, gC]

/-- The inner solve of `pC` returns the unit resistances for every stress. -/
lemma pC_solveStatevar (S : Mat3 ℝ) : solveStatevar pC S = some gC := by
  show solveStatevarLoop pC S (0 + 1) pC.gssOld = some gC
  rw [solveStatevarLoop_succ, pC_statevarUpdate, pC_innerResid,
    if_pos (show (0 : ℝ) < pC.gtol by norm_num [pC])]

/-- The trial stress of the elastic-limit run is `SC`. -/
lemma pC_trial : trialStress pC = SC := by
  have h1 : pC.F * pC.fpOldInv = FC := by
    show FC * 1 = FC
    exact mul_one FC
  unfold trialStress
  rw [show pC.Cel = CelId from rfl, h1, elasContract_CelId]
  ext i j
  fin_cases i <;> fin_cases j <;>
    simp [elasticStrain, FC, e01, SC, Matrix.mul_apply, Matrix.transpose_apply,
      Matrix.one_apply, Fin.sum_univ_three, smul_eq_mul]

/-- The resolved shear stress of the trial stress on the concrete slip system. -/
lemma pC_tau : resolvedShear SC sys01 = 1 / 2 := by
  simp [resolvedShear, ddot, schmidSym, schmid_sys01, SC, e01,
    Matrix.transpose_apply, Fin.sum_univ_three, smul_eq_mul]
  norm_num

/-- The slip increment of the elastic-limit run: nonzero although the resolved shear
stress is strictly below the resistance. -/
lemma pC_slipIncr : slipIncr pC SC gC 0 = 1 / 2 := by
  unfold slipIncr slipRate
  rw [show pC.sys 0 = sys01 from rfl, pC_tau]
  rw [show gC 0 = (1 : ℝ) from rfl, show pC.a0 = (1 : ℝ) from rfl,
    show pC.flowExp = (1 : ℝ) from rfl, show pC.dt = (1 : ℝ) from rfl]
  rw [Real.sign_of_pos (by norm_num : (0 : ℝ) < 1 / 2)]
  rw [show |(1 / 2 : ℝ) / 1| = (1 / 2 : ℝ) by norm_num]
  rw [Real.rpow_one]
  norm_num

/-- The plastic-flow increment of the elastic-limit run. -/
lemma pC_plasticFlow :
    plasticFlow pC (fun s => slipIncr pC SC gC s) = (1 / 2 : ℝ) • e01 := by
  unfold plasticFlow
  rw [Fin.sum_univ_one]
  show slipIncr pC SC gC 0 • schmid (pC.sys 0) = (1 / 2 : ℝ) • e01
  rw [pC_slipIncr, show pC.sys 0 = sys01 from rfl, schmid_sys01]

/-- The inverse plastic deformation gradient of the elastic-limit run. -/
lemma pC_fpInvNew : fpInvNew pC SC gC = fpiC := by
  unfold fpInvNew
  rw [pC_plasticFlow, show pC.fpOldInv = (1 : Mat3 ℝ) from rfl, one_mul]
  ext i j
  fin_cases i <;> fin_cases j <;>
    simp [fpiC, e01, Matrix.one_apply, smul_eq_mul]

/-- The outer residual of the elastic-limit run at the trial stress. -/
lemma pC_calcResidual : calcResidual pC SC gC = RC := by
  unfold calcResidual feNew
  rw [pC_fpInvNew, show pC.Cel = CelId from rfl, elasContract_CelId,
    show pC.F = FC from rfl]
  ext i j
  fin_cases i <;> fin_cases j <;>
    simp [elasticStrain, FC, fpiC, e01, SC, RC, Matrix.mul_apply,
      Matrix.transpose_apply, Matrix.one_apply, Fin.sum_univ_three,
      smul_eq_mul] <;>
    norm_num

/-- The outer residual norm of the elastic-limit run is below the absolute floor
tolerance. -/
lemma pC_resnorm : frobNorm (calcResidual pC SC gC) < pC.abstol := by
  rw [pC_calcResidual]
  have hsum : (∑ i, ∑ j, (RC i j) ^ 2) = 17 / 64 := by
    simp [RC, Fin.sum_univ_three]
    norm_num
  unfold frobNorm
  rw [hsum, show pC.abstol = (10 : ℝ) from rfl,
    Real.sqrt_lt' (by norm_num : (0 : ℝ) < 10)]
  norm_num

/-- The determinant of the plastic deformation gradient accepted by the
elastic-limit run. -/
lemma pC_det : (fpNew pC SC gC).det = 1 := by
  unfold fpNew
  rw [pC_fpInvNew, Matrix.det_nonsing_inv]
  have hdet : fpiC.det = 1 := by
    rw [Matrix.det_fin_three]
    simp [fpiC]
  rw [hdet, Ring.inverse_one]

/-- The concrete elastic-limit run: the solver accepts the trial stress `SC` and the
unit resistances at the first outer iterate. -/
lemma pC_run : solveStress pC = CPResult.converged SC gC 0 := by
  have hsv : solveStatevar pC (trialStress pC) = some gC := pC_solveStatevar _
  rw [solveStress_eq_some pC gC hsv, pC_trial]
  show solveStressLoop pC (frobNorm (calcResidual pC SC gC)) (0 + 1) SC 0
    = CPResult.converged SC gC 0
  rw [solveStressLoop_succ_some pC _ 0 SC 0 gC (pC_solveStatevar SC)]
  rw [if_pos (Or.inr pC_resnorm)]
  rw [if_pos (show |(fpNew pC SC gC).det - 1| ≤ pC.dettol by
    rw [pC_det]; norm_num [pC])]

/-- C6 counterexample: a concrete deformation increment (`pC`, simple shear) whose
resolved shear stress at the accepted state is strictly below the slip system's
resistance, on which the solver converges with a nonzero plastic slip increment —
the power-law flow rule produces slip at any nonzero resolved shear stress, so the
claim "converges with zero plastic slip increment" is false as stated. -/
theorem c6_counterexample :
    solveStress pC = CPResult.converged SC gC 0 ∧
      |resolvedShear SC (pC.sys 0)| < gC 0 ∧
      slipIncr pC SC gC 0 ≠ 0 := by
  refine ⟨pC_run, ?_, ?_⟩
  · rw [show pC.sys 0 = sys01 from rfl, pC_tau, show gC 0 = (1 : ℝ) from rfl,
      abs_of_pos (by norm_num : (0 : ℝ) < 1 / 2)]
    norm_num
  · rw [pC_slipIncr]
    norm_num

/-- C6 (amended): for every converged accepted state whose resolved shear stress is
below every slip system's resistance, the plastic slip increments are bounded in
magnitude by `a0 * Δt` (near zero for a small reference slip rate or time increment,
but not exactly zero in general); they vanish exactly — and the plastic deformation
gradient equals the previous step's value exactly — when the resolved shear stress
is zero on every slip system. -/
theorem c6_elastic_limit_amended {n : ℕ} (p : CPParams n) (S : Mat3 ℝ)
    (g : Fin n → ℝ) (it : ℕ) (_hconv : solveStress p = CPResult.converged S g it)
    (ha : 0 ≤ p.a0) (hdt : 0 ≤ p.dt) (hexp : 0 < p.flowExp)
    (hg : ∀ s, 0 < g s) (hbelow : ∀ s, |resolvedShear S (p.sys s)| < g s) :
    (∀ s, |slipIncr p S g s| ≤ p.a0 * p.dt) ∧
      ((∀ s, resolvedShear S (p.sys s) = 0) →
        (∀ s, slipIncr p S g s = 0) ∧ fpInvNew p S g = p.fpOldInv ∧
          fpNew p S g = (p.fpOldInv)⁻¹) := by
  constructor
  · intro s
    have hq0 : 0 ≤ |resolvedShear S (p.sys s) / g s| := abs_nonneg _
    have hq1 : |resolvedShear S (p.sys s) / g s| ≤ 1 := by
      rw [abs_div, abs_of_pos (hg s)]
      exact div_le_one_of_le₀ (hbelow s).le (hg s).le
    have hrp : |resolvedShear S (p.sys s) / g s| ^ p.flowExp ≤ 1 :=
      Real.rpow_le_one hq0 hq1 hexp.le
    have hrp0 : 0 ≤ |resolvedShear S (p.sys s) / g s| ^ p.flowExp :=
      Real.rpow_nonneg hq0 _
    have hsg : |Real.sign (resolvedShear S (p.sys s))| ≤ 1 := by
      rcases Real.sign_apply_eq (resolvedShear S (p.sys s)) with h | h | h <;>
        rw [h] <;> norm_num
    have h1 : |slipIncr p S g s|
        = p.a0 * |resolvedShear S (p.sys s) / g s| ^ p.flowExp
            * |Real.sign (resolvedShear S (p.sys s))| * p.dt := by
      unfold slipIncr slipRate
      rw [abs_mul, abs_mul, abs_mul, abs_of_nonneg ha, abs_of_nonneg hrp0,
        abs_of_nonneg hdt]
    rw [h1]
    have h2 : p.a0 * |resolvedShear S (p.sys s) / g s| ^ p.flowExp
        * |Real.sign (resolvedShear S (p.sys s))| ≤ p.a0 := by
      have h3 : p.a0 * |resolvedShear S (p.sys s) / g s| ^ p.flowExp ≤ p.a0 :=
        mul_le_of_le_one_right ha hrp
      have h4 : p.a0 * |resolvedShear S (p.sys s) / g s| ^ p.flowExp
          * |Real.sign (resolvedShear S (p.sys s))|
            ≤ p.a0 * |resolvedShear S (p.sys s) / g s| ^ p.flowExp :=
        mul_le_of_le_one_right (mul_nonneg ha hrp0) hsg
      linarith
    exact mul_le_mul_of_nonneg_right h2 hdt
  · intro hzero
    have hs : ∀ s, slipIncr p S g s = 0 := by
      intro s
      unfold slipIncr slipRate
      rw [hzero s, Real.sign_zero]
      ring
    have hflow : plasticFlow p (fun s => slipIncr p S g s) = 0 := by
      unfold plasticFlow
      simp [hs]
    have hfpi : fpInvNew p S g = p.fpOldInv := by
      unfold fpInvNew
      rw [hflow]
      simp
    exact ⟨hs, hfpi, by unfold fpNew; rw [hfpi]⟩

/-- Witness for the amended C6 at the concrete elastic-limit run `pC`: the accepted
slip increment is bounded by `a0 * Δt`. -/
theorem c6_witness : |slipIncr pC SC gC 0| ≤ pC.a0 * pC.dt :=
  (c6_elastic_limit_amended pC SC gC 0 pC_run (by norm_num [pC])
    (by norm_num [pC]) (by norm_num [pC])
    (fun s => by rw [show gC s = (1 : ℝ) from rfl]; norm_num)
    (fun s => by
      have hs0 : s = 0 := Subsingleton.elim s 0
      subst hs0
      rw [show pC.sys 0 = sys01 from rfl, pC_tau, show gC 0 = (1 : ℝ) from rfl,
        abs_of_pos (by norm_num : (0 : ℝ) < 1 / 2)]
      norm_num)).1 0

end ElasticLimit

end Marisol
